import Mathlib

/-!
Verification of the artifact-generation engine of `server.js` (an Express
server that rewrites one entry inside a zip-structured APK template and
serves the generated artifact for a retention window).

Strings and byte buffers are modelled as `List Char`; the zip container is
modelled as the sequence of its entries (name, content), matching how the
`adm-zip` operations used by the server (`getEntry`, `updateFile`,
`addFile`, `writeZip`) observe and transform it.
-/

namespace Apkapa

/-! ## Basic string operations (JS `includes`, `endsWith`, `toLowerCase`) -/

/-- JS `String.prototype.startsWith`-style check: `beginsWith needle hay`. -/
def beginsWith : List Char → List Char → Bool
  | [], _ => true
  | _ :: _, [] => false
  | n :: ns, h :: hs => (n = h : Bool) && beginsWith ns hs

/-- JS `String.prototype.includes`: `containsSub needle hay` is true iff
`needle` occurs as a contiguous substring of `hay`. -/
def containsSub (needle : List Char) : List Char → Bool
  | [] => needle.isEmpty
  | h :: hs => beginsWith needle (h :: hs) || containsSub needle hs

/-- JS `String.prototype.endsWith`. -/
def endsWith (tail hay : List Char) : Bool :=
  beginsWith tail.reverse hay.reverse

/-- JS `String.prototype.toLowerCase` (ASCII range, which is all the
markers and extensions compared against). -/
def lowerList (s : List Char) : List Char :=
  s.map Char.toLower

/-! ## Content Validator (`isLikelyHtml`, server.js lines 40-45) -/

def doctypeMarker : List Char := "<!doctype html".toList
def htmlMarker : List Char := "<html".toList
def bodyMarker : List Char := "<body".toList

/-- server.js `isLikelyHtml`: false on an empty/absent string, otherwise
true iff the lowercased text contains one of the three markers. -/
def isLikelyHtml (s : List Char) : Bool :=
  if s = [] then false
  else
    containsSub doctypeMarker (lowerList s) ||
    containsSub htmlMarker (lowerList s) ||
    containsSub bodyMarker (lowerList s)

/-- Spec-side acceptance predicate, following the spec's words: the decoded
text "contains at least one of a small set of structural markers (a doctype
declaration, an opening `<html`, or an opening `<body>` tag),
case-insensitively". Stated for comparison with `isLikelyHtml`. -/
def specAccepts (s : List Char) : Bool :=
  containsSub doctypeMarker (lowerList s) ||
  containsSub htmlMarker (lowerList s) ||
  containsSub bodyMarker (lowerList s)

/-! ## Archive Rewriter (zip model; server.js lines 127-140) -/

structure ZipEntry where
  name : List Char
  content : List Char
deriving DecidableEq, Repr

abbrev Zip := List ZipEntry

/-- `adm-zip` `getEntry`: first entry with the given (case-sensitive) name. -/
def getEntry : Zip → List Char → Option ZipEntry
  | [], _ => none
  | e :: rest, p => if e.name = p then some e else getEntry rest p

/-- `adm-zip` `updateFile`: replace the content of the (first) entry with
the given name, leave every other entry untouched. -/
def updateFile : Zip → List Char → List Char → Zip
  | [], _, _ => []
  | e :: rest, p, c =>
      if e.name = p then { e with content := c } :: rest
      else e :: updateFile rest p c

/-- `adm-zip` `addFile`: append a new entry. -/
def addFile (z : Zip) (p c : List Char) : Zip :=
  z ++ [⟨p, c⟩]

/-- The rewrite performed by `POST /api/create-apk` (server.js 130-137):
update the entry if present, otherwise add it. -/
def rewriteZip (z : Zip) (p c : List Char) : Zip :=
  match getEntry z p with
  | some _ => updateFile z p c
  | none => addFile z p c

/-- A well-formed container has pairwise distinct entry names. -/
def ZipNoDup (z : Zip) : Prop :=
  (z.map ZipEntry.name).Nodup

instance (z : Zip) : Decidable (ZipNoDup z) :=
  inferInstanceAs (Decidable ((z.map ZipEntry.name).Nodup))

/-! ### Rewriter lemmas -/

theorem getEntry_name_eq {z : Zip} {p : List Char} {e : ZipEntry}
    (h : getEntry z p = some e) : e.name = p := by
  induction z with
  | nil => simp [getEntry] at h
  | cons a rest ih =>
    by_cases ha : a.name = p
    · simp [getEntry, ha] at h
      rw [← h]; exact ha
    · simp [getEntry, ha] at h
      exact ih h

theorem getEntry_updateFile_self {z : Zip} {p : List Char} {e : ZipEntry}
    (h : getEntry z p = some e) (c : List Char) :
    getEntry (updateFile z p c) p = some { e with content := c } := by
  induction z with
  | nil => simp [getEntry] at h
  | cons a rest ih =>
    by_cases ha : a.name = p
    · simp [getEntry, ha] at h
      subst h
      simp [updateFile, getEntry, ha]
    · simp [getEntry, ha] at h
      simp [updateFile, getEntry, ha, ih h]

theorem getEntry_updateFile_ne (z : Zip) (p c q : List Char) (hq : q ≠ p) :
    getEntry (updateFile z p c) q = getEntry z q := by
  induction z with
  | nil => simp [updateFile]
  | cons a rest ih =>
    by_cases ha : a.name = p
    · have haq : ¬ a.name = q := by rw [ha]; exact fun h => hq h.symm
      simp [updateFile, getEntry, ha, haq, Ne.symm hq]
    · by_cases haq : a.name = q
      · simp [updateFile, getEntry, ha, haq, hq]
      · simp [updateFile, getEntry, ha, haq, ih]

theorem updateFile_map_name (z : Zip) (p c : List Char) :
    (updateFile z p c).map ZipEntry.name = z.map ZipEntry.name := by
  induction z with
  | nil => simp [updateFile]
  | cons a rest ih =>
    by_cases ha : a.name = p
    · simp [updateFile, ha]
    · simp [updateFile, ha, ih]

theorem updateFile_updateFile (z : Zip) (p c : List Char) :
    updateFile (updateFile z p c) p c = updateFile z p c := by
  induction z with
  | nil => simp [updateFile]
  | cons a rest ih =>
    by_cases ha : a.name = p
    · simp [updateFile, ha]
    · simp [updateFile, ha, ih]

theorem updateFile_append_absent (z : Zip) (p c : List Char)
    (h : getEntry z p = none) :
    updateFile (z ++ [⟨p, c⟩]) p c = z ++ [⟨p, c⟩] := by
  induction z with
  | nil => simp [updateFile]
  | cons a rest ih =>
    by_cases ha : a.name = p
    · simp [getEntry, ha] at h
    · simp [getEntry, ha] at h
      simp [updateFile, ha, ih h]

theorem getEntry_append_absent (z : Zip) (p c : List Char)
    (h : getEntry z p = none) :
    getEntry (z ++ [⟨p, c⟩]) p = some ⟨p, c⟩ := by
  induction z with
  | nil => simp [getEntry]
  | cons a rest ih =>
    by_cases ha : a.name = p
    · simp [getEntry, ha] at h
    · simp [getEntry, ha] at h
      simp [getEntry, ha, ih h]

/-! ## The `POST /api/create-apk` handler (server.js lines 80-166) -/

/-- The fields of the request the handler reads. `none` models an absent
(or, via `orElseStr`, falsy) field; the file is (originalname, buffer). -/
structure CreateReq where
  username : Option (List Char)
  projectName : Option (List Char)
  replacePath : Option (List Char)
  file : Option (List Char × List Char)
  text : Option (List Char)
deriving DecidableEq

/-- JS `x || d` on an optional string: the default replaces both an absent
and an empty (falsy) value. -/
def orElseStr (s : Option (List Char)) (d : List Char) : List Char :=
  match s with
  | none => d
  | some v => if v = [] then d else v

/-- JS regex `\w` without the unicode flag: `[A-Za-z0-9_]`. -/
def isWordChar (c : Char) : Bool :=
  (decide ('a' ≤ c) && decide (c ≤ 'z')) ||
  (decide ('A' ≤ c) && decide (c ≤ 'Z')) ||
  (decide ('0' ≤ c) && decide (c ≤ '9')) ||
  (c = '_' : Bool)

/-- The safe character set of the sanitized project label: `\w` or `-`. -/
def isSafeChar (c : Char) : Bool :=
  isWordChar c || (c = '-' : Bool)

/-- server.js line 84: `raw.replace(/[^\w\-]/g,'-').substring(0,50) || 'rapz-app'`. -/
def sanitizeProject (s : List Char) : List Char :=
  if (s.map (fun c => if isSafeChar c then c else '-')).take 50 = []
  then "rapz-app".toList
  else (s.map (fun c => if isSafeChar c then c else '-')).take 50

/-- server.js line 82: `(req.body.username || 'anon').toString().substring(0,64)`. -/
def usernameOf (u : Option (List Char)) : List Char :=
  (orElseStr u "anon".toList).take 64

/-- server.js lines 83-84. -/
def projectNameOf (p : Option (List Char)) : List Char :=
  sanitizeProject (orElseStr p "rapz-app".toList)

/-- server.js line 85: default target entry path. -/
def defaultReplacePath : List Char := "assets/www/index.html".toList

/-- server.js lines 91-92: lowercased original name ends in `.html`/`.htm`. -/
def hasHtmlExt (fname : List Char) : Bool :=
  endsWith ".html".toList (lowerList fname) || endsWith ".htm".toList (lowerList fname)

def msgUnsupported : List Char :=
  "Uploaded file not supported for direct replacement. Upload .html or use paste.".toList
def msgNoHtml : List Char :=
  "No HTML provided. Paste code or upload .html file.".toList
def msgNotHtml : List Char :=
  "Provided content does not look like valid HTML.".toList

/-- server.js lines 88-102: the HTML content selection. An uploaded file is
considered first; a non-`.html`/`.htm` name is rejected outright; only when
no file was uploaded is the pasted `text` field (if truthy) used. -/
def selectPayload (req : CreateReq) : Except (List Char) (List Char) :=
  match req.file with
  | some (fname, buf) =>
      if hasHtmlExt fname then Except.ok buf else Except.error msgUnsupported
  | none =>
      match req.text with
      | some t => if t = [] then Except.error msgNoHtml else Except.ok t
      | none => Except.error msgNoHtml

/-- The handler's outcome: an HTTP 400 with a message, the HTTP 500
"No APK template found" response, or success with the download name. -/
inductive CreateRes where
  | badRequest (msg : List Char)
  | noTemplate
  | ok (downloadName : List Char)
deriving DecidableEq

/-- Aggregate counters of the JSON-file ledger (`db.json` `stats`). -/
structure Stats where
  success : Nat
  fail : Nat
deriving DecidableEq

/-- A ledger record: the success shape pushed at server.js lines 143-147,
or the error shape pushed in the catch block at line 162. -/
inductive ReqRecord where
  | success (username projectName replacePath filename : List Char)
      (createdAt : Nat)
  | failure (id : Nat) (error : List Char)
deriving DecidableEq

structure LedgerDB where
  stats : Stats
  requests : List ReqRecord
deriving DecidableEq

/-- Server state the handler touches: the current template (absent, or its
parsed zip), the ledger database, and the generated-artifacts directory. -/
structure ServerState where
  template : Option Zip
  db : LedgerDB
  generated : List (List Char × Zip)
deriving DecidableEq

/-- server.js line 120: `${projectName}_${Date.now()}.apk`. -/
def outNameOf (projectName : List Char) (now : Nat) : List Char :=
  projectName ++ '_' :: (Nat.toDigits 10 now ++ ".apk".toList)

/-- The handler body of `POST /api/create-apk` (server.js lines 80-157),
with `now` standing for `Date.now()`: select the payload, validate it with
`isLikelyHtml`, require a current template, rewrite the entry at
`replacePath`, store the artifact, and push one success record while
incrementing the success counter. Every early-return path leaves the
state untouched. -/
def createApk (st : ServerState) (req : CreateReq) (now : Nat) :
    CreateRes × ServerState :=
  let username := usernameOf req.username
  let projectName := projectNameOf req.projectName
  let replacePath := orElseStr req.replacePath defaultReplacePath
  match selectPayload req with
  | Except.error m => (CreateRes.badRequest m, st)
  | Except.ok html =>
    if isLikelyHtml html then
      match st.template with
      | none => (CreateRes.noTemplate, st)
      | some z =>
        let outName := outNameOf projectName now
        (CreateRes.ok outName,
          { template := st.template
            db := { stats := { success := st.db.stats.success + 1
                               fail := st.db.stats.fail }
                    requests :=
                      ReqRecord.success username projectName replacePath
                        outName now :: st.db.requests }
            generated := (outName, rewriteZip z replacePath html) :: st.generated })
    else (CreateRes.badRequest msgNotHtml, st)

/-- server.js lines 159-165 (the catch block): the only failure path that
touches the ledger, reached when an exception is thrown. -/
def handleError (db : LedgerDB) (now : Nat) (err : List Char) : LedgerDB :=
  { stats := { success := db.stats.success, fail := db.stats.fail + 1 }
    requests := ReqRecord.failure now err :: db.requests }

/-- The target entry path contains a parent-traversal segment. -/
def hasDotDot (p : List Char) : Bool :=
  containsSub "..".toList p

/-! ## Template Registry (server.js lines 49-72) -/

/-- A directory as a list of (name, bytes) files in creation order.
`fs.writeFileSync` overwrites an existing file in place, otherwise the new
file is a fresh directory entry. -/
abbrev Dir := List (List Char × List Char)

def hasFile (d : Dir) (n : List Char) : Bool :=
  d.any (fun p => (p.1 = n : Bool))

def writeFileDir (d : Dir) (n b : List Char) : Dir :=
  if hasFile d n then d.map (fun p => if p.1 = n then (n, b) else p)
  else d ++ [(n, b)]

def currentTemplateName : List Char := "current_template.apk".toList

/-- server.js line 55: `template_${Date.now()}.apk`. -/
def templateFileName (now : Nat) : List Char :=
  "template_".toList ++ (Nat.toDigits 10 now ++ ".apk".toList)

/-- `POST /api/admin/upload-template` (server.js lines 49-64): write the
timestamped template file, then overwrite `current_template.apk`. -/
def uploadTemplate (d : Dir) (now : Nat) (b : List Char) : Dir :=
  writeFileDir (writeFileDir d (templateFileName now) b) currentTemplateName b

/-- `GET /api/admin/templates` (server.js lines 67-72):
`fs.readdirSync(TEMPLATES_DIR).filter(f => f.endsWith('.apk'))`, with no
sorting or reversing applied to the directory enumeration. -/
def listTemplates (d : Dir) : List (List Char) :=
  (d.map Prod.fst).filter (fun f => endsWith ".apk".toList f)

/-! ## Artifact Lifecycle (server.js lines 140, 152-154, 169-171) -/

/-- The generated-artifacts directory: name to bytes. -/
abbrev Store := List (List Char × List Char)

/-- Retrieval through `express.static(GEN_DIR)`. -/
def fetchArtifact : Store → List Char → Option (List Char)
  | [], _ => none
  | (m, b) :: rest, n => if m = n then some b else fetchArtifact rest n

/-- `zip.writeZip(outFull)`: persist the artifact under its name. -/
def createArtifact (s : Store) (n b : List Char) : Store :=
  (n, b) :: s

/-- The scheduled `fs.unlinkSync(outFull)` wrapped in `try/catch(ignore)`:
remove the file if present; removing an absent file is a no-op. -/
def expireArtifact (s : Store) (n : List Char) : Store :=
  s.filter (fun p => !(p.1 = n : Bool))

/-- The store an observer sees at time `t` (seconds) after an artifact was
created at `createdAt` with retention window `cleanup`
(`setTimeout(... unlink ..., CLEANUP_SECONDS * 1000)`, server.js 152-154):
before `createdAt + cleanup` the file persists; once the timer has fired it
is removed. -/
def storeAt (s0 : Store) (n b : List Char) (createdAt cleanup t : Nat) : Store :=
  if createdAt + cleanup ≤ t then expireArtifact (createArtifact s0 n b) n
  else createArtifact s0 n b

/-- Default of `CLEANUP_SECONDS` (server.js line 19). -/
def cleanupSecondsDefault : Nat := 3600

/-! ## Concrete fixtures used by counterexamples and witnesses -/

/-- A two-entry template container. -/
def zTmpl : Zip :=
  [⟨"assets/www/index.html".toList, "old".toList⟩,
   ⟨"AndroidManifest.xml".toList, "manifest".toList⟩]

/-- A server state holding `zTmpl` as the current template. -/
def stTmpl : ServerState :=
  { template := some zTmpl
    db := { stats := { success := 2, fail := 5 }, requests := [] }
    generated := [] }

/-- A server state with no template ever uploaded. -/
def stNoTmpl : ServerState :=
  { template := none
    db := { stats := { success := 2, fail := 5 }, requests := [] }
    generated := [] }

/-- A pasted-text request whose target path climbs out of the archive. -/
def reqTraversal : CreateReq :=
  { username := none, projectName := none
    replacePath := some "../../evil.html".toList
    file := none, text := some "<html>hi</html>".toList }

/-- A plain valid pasted-text request with every optional field defaulted. -/
def reqPlain : CreateReq :=
  { username := none, projectName := none, replacePath := none
    file := none, text := some "<html>hi</html>".toList }

/-- A valid pasted-text request carrying a username full of characters
outside the safe set. -/
def reqBadUser : CreateReq :=
  { username := some "a b!<script>".toList, projectName := none
    replacePath := none, file := none, text := some "<html>hi</html>".toList }

/-- A pasted-text request whose payload has no HTML marker. -/
def reqNoMarkers : CreateReq :=
  { username := none, projectName := none, replacePath := none
    file := none, text := some "hello world".toList }

/-- A request uploading a `.txt` file while also pasting valid HTML text. -/
def reqFileBad : CreateReq :=
  { username := none, projectName := none, replacePath := none
    file := some ("notes.txt".toList, "<html>hi</html>".toList)
    text := some "<html>hi</html>".toList }

/-! ## Shared lemmas -/

theorem isLikelyHtml_eq_specAccepts (s : List Char) :
    isLikelyHtml s = specAccepts s := by
  by_cases hs : s = []
  · subst hs; decide
  · simp [isLikelyHtml, specAccepts, hs]

theorem isLikelyHtml_ne_nil {t : List Char} (h : isLikelyHtml t = true) :
    t ≠ [] := by
  intro hnil
  subst hnil
  simp [isLikelyHtml] at h

theorem fetchArtifact_expire (s : Store) (n : List Char) :
    fetchArtifact (expireArtifact s n) n = none := by
  induction s with
  | nil => rfl
  | cons a rest ih =>
    by_cases ha : a.1 = n
    · simpa [expireArtifact, List.filter_cons, ha] using ih
    · simpa [expireArtifact, List.filter_cons, ha, fetchArtifact] using ih

theorem expireArtifact_idem (s : Store) (n : List Char) :
    expireArtifact (expireArtifact s n) n = expireArtifact s n := by
  simp [expireArtifact, List.filter_filter]

theorem beginsWith_self_append (p r : List Char) :
    beginsWith p (p ++ r) = true := by
  induction p with
  | nil => rfl
  | cons a as ih => simp [beginsWith, ih]

theorem endsWith_append_self (a s : List Char) :
    endsWith s (a ++ s) = true := by
  rw [endsWith, List.reverse_append]
  exact beginsWith_self_append s.reverse a.reverse

theorem templateFileName_endsWith_apk (n : Nat) :
    endsWith ".apk".toList (templateFileName n) = true := by
  rw [templateFileName, ← List.append_assoc]
  exact endsWith_append_self _ _

theorem endsWith_current_apk :
    endsWith ".apk".toList currentTemplateName = true := by
  decide

theorem templateFileName_endsWith_apk_chars (n : Nat) :
    endsWith ['.', 'a', 'p', 'k'] (templateFileName n) = true :=
  templateFileName_endsWith_apk n

theorem endsWith_current_apk_chars :
    endsWith ['.', 'a', 'p', 'k'] currentTemplateName = true :=
  endsWith_current_apk

theorem templateFileName_ne_current (n : Nat) :
    templateFileName n ≠ currentTemplateName := by
  intro h
  have h1 : beginsWith "template_".toList (templateFileName n) = true := by
    rw [templateFileName]
    exact beginsWith_self_append _ _
  rw [h] at h1
  exact absurd h1 (by decide)

/-! ## Claim theorems -/

/-- Claim C1: for every valid zip container, entry path present in it, and
replacement content, the rewrite yields a container whose entry at that
path extracts to exactly the replacement, every other entry is unchanged,
and the entry-name sequence is preserved. -/
theorem rewrite_replaces_entry (z : Zip) (p x : List Char) (e : ZipEntry)
    (_hv : ZipNoDup z) (hp : getEntry z p = some e) :
    getEntry (rewriteZip z p x) p = some ⟨p, x⟩ ∧
    (∀ q, q ≠ p → getEntry (rewriteZip z p x) q = getEntry z q) ∧
    (rewriteZip z p x).map ZipEntry.name = z.map ZipEntry.name := by
  have hname : e.name = p := getEntry_name_eq hp
  have hr : rewriteZip z p x = updateFile z p x := by
    rw [rewriteZip, hp]
  refine ⟨?_, ?_, ?_⟩
  · rw [hr, getEntry_updateFile_self hp x]
    cases e
    simp only at hname
    simp [hname]
  · intro q hq
    rw [hr]
    exact getEntry_updateFile_ne z p x q hq
  · rw [hr]
    exact updateFile_map_name z p x

/-- Witness for C1 on the concrete two-entry template. -/
theorem rewrite_replaces_entry_witness :
    ZipNoDup zTmpl ∧
    getEntry zTmpl "assets/www/index.html".toList =
      some ⟨"assets/www/index.html".toList, "old".toList⟩ ∧
    getEntry (rewriteZip zTmpl "assets/www/index.html".toList "new".toList)
      "assets/www/index.html".toList =
      some ⟨"assets/www/index.html".toList, "new".toList⟩ :=
  ⟨by decide, by decide,
    (rewrite_replaces_entry zTmpl "assets/www/index.html".toList "new".toList
      ⟨"assets/www/index.html".toList, "old".toList⟩ (by decide) (by decide)).1⟩

/-- Claim C6: rewriting with identical content is stable — the second
rewrite finds the entry already present with the same name and replaces
its content by the same bytes. -/
theorem rewriteZip_idempotent (z : Zip) (p x : List Char) :
    rewriteZip (rewriteZip z p x) p x = rewriteZip z p x := by
  cases hp : getEntry z p with
  | some e =>
    have h1 : rewriteZip z p x = updateFile z p x := by rw [rewriteZip, hp]
    have h2 : getEntry (updateFile z p x) p = some { e with content := x } :=
      getEntry_updateFile_self hp x
    rw [h1, rewriteZip, h2]
    exact updateFile_updateFile z p x
  | none =>
    have h1 : rewriteZip z p x = z ++ [⟨p, x⟩] := by
      rw [rewriteZip, hp, addFile]
    have h2 := getEntry_append_absent z p x hp
    rw [h1, rewriteZip, h2]
    exact updateFile_append_absent z p x hp

/-- Claim C5: the Content Validator accepts exactly the payloads whose
lowercased text contains one of the structural markers, and a pasted
payload lacking all markers is rejected with the state (hence the
generated-artifacts store) unchanged. -/
theorem isLikelyHtml_matches_spec (s t : List Char) (st : ServerState)
    (req : CreateReq) (now : Nat)
    (hf : req.file = none) (ht : req.text = some t)
    (hno : specAccepts t = false) :
    isLikelyHtml s = specAccepts s ∧
    (createApk st req now).2 = st ∧
    (∀ n, (createApk st req now).1 ≠ CreateRes.ok n) := by
  have hrej : createApk st req now = (CreateRes.badRequest msgNoHtml, st) ∨
      createApk st req now = (CreateRes.badRequest msgNotHtml, st) := by
    by_cases htnil : t = []
    · left
      simp [createApk, selectPayload, hf, ht, htnil]
    · right
      have hh : isLikelyHtml t = false := by
        rw [isLikelyHtml_eq_specAccepts, hno]
      simp [createApk, selectPayload, hf, ht, htnil, hh]
  refine ⟨isLikelyHtml_eq_specAccepts s, ?_, ?_⟩
  · rcases hrej with h | h <;> rw [h]
  · intro n hn
    rcases hrej with h | h <;> rw [h] at hn <;> cases hn

/-- Witness for C5: `"hello world"` lacks all markers and is rejected,
and the validator agrees with the marker predicate on `"<HtMl>"`. -/
theorem isLikelyHtml_matches_spec_witness :
    specAccepts "hello world".toList = false ∧
    isLikelyHtml "<HtMl>".toList = specAccepts "<HtMl>".toList ∧
    (createApk stTmpl reqNoMarkers 0).2 = stTmpl :=
  ⟨by decide,
    (isLikelyHtml_matches_spec "<HtMl>".toList "hello world".toList stTmpl
      reqNoMarkers 0 rfl rfl (by decide)).1,
    (isLikelyHtml_matches_spec "<HtMl>".toList "hello world".toList stTmpl
      reqNoMarkers 0 rfl rfl (by decide)).2.1⟩

/-- Counterexample to C2: a request whose target entry path contains `..`
is not rejected — the handler succeeds and stores an artifact whose zip was
rewritten at the verbatim traversal path. -/
theorem traversal_path_not_rejected :
    hasDotDot "../../evil.html".toList = true ∧
    (createApk stTmpl reqTraversal 7).1 = CreateRes.ok "rapz-app_7.apk".toList ∧
    (createApk stTmpl reqTraversal 7).2.generated =
      [("rapz-app_7.apk".toList,
        rewriteZip zTmpl "../../evil.html".toList "<html>hi</html>".toList)] := by
  decide

/-- Claim C2 (amended): the handler applies no normalization or
parent-traversal check to the target entry path — any pasted-text request
with a valid payload and an available template succeeds, the path
(traversal segments included) being used verbatim for the rewrite. -/
theorem createApk_no_path_validation (st : ServerState) (req : CreateReq)
    (t : List Char) (z : Zip) (now : Nat)
    (hf : req.file = none) (ht : req.text = some t)
    (hhtml : isLikelyHtml t = true) (hz : st.template = some z) :
    (createApk st req now).1 =
      CreateRes.ok (outNameOf (projectNameOf req.projectName) now) ∧
    (createApk st req now).2.generated =
      (outNameOf (projectNameOf req.projectName) now,
        rewriteZip z (orElseStr req.replacePath defaultReplacePath) t)
        :: st.generated := by
  have htnil : t ≠ [] := isLikelyHtml_ne_nil hhtml
  simp [createApk, selectPayload, hf, ht, htnil, hhtml, hz]

/-- Witness for the amended C2 at the concrete traversal request. -/
theorem createApk_no_path_validation_witness :
    reqTraversal.file = none ∧ isLikelyHtml "<html>hi</html>".toList = true ∧
    (createApk stTmpl reqTraversal 7).1 =
      CreateRes.ok (outNameOf (projectNameOf reqTraversal.projectName) 7) :=
  ⟨rfl, by decide,
    (createApk_no_path_validation stTmpl reqTraversal "<html>hi</html>".toList
      zTmpl 7 rfl rfl (by decide) rfl).1⟩

/-- Counterexample to C3: with no template ever uploaded and a valid
payload, the handler returns the no-template error but records no ledger
entry and leaves the failure counter unchanged. -/
theorem no_template_failure_unrecorded :
    (createApk stNoTmpl reqPlain 1).1 = CreateRes.noTemplate ∧
    (createApk stNoTmpl reqPlain 1).2.db.stats.fail = stNoTmpl.db.stats.fail ∧
    (createApk stNoTmpl reqPlain 1).2.db.requests = stNoTmpl.db.requests := by
  decide

/-- Claim C3 (amended): every non-success outcome of the handler body
(invalid payload, unsupported extension, missing input, no template)
leaves the server state — ledger and counters included — unchanged; only
the catch block, reached on a thrown exception, appends exactly one
failure record and increments the failure counter exactly once. -/
theorem failure_paths_leave_ledger_unchanged (st : ServerState)
    (req : CreateReq) (now : Nat) (db : LedgerDB) (tErr : Nat) (e : List Char)
    (h : ∀ n, (createApk st req now).1 ≠ CreateRes.ok n) :
    (createApk st req now).2 = st ∧
    (handleError db tErr e).stats.fail = db.stats.fail + 1 ∧
    (handleError db tErr e).requests.length = db.requests.length + 1 := by
  refine ⟨?_, rfl, rfl⟩
  cases hsel : selectPayload req with
  | error m => simp [createApk, hsel]
  | ok html =>
    by_cases hh : isLikelyHtml html
    · cases hz : st.template with
      | none => simp [createApk, hsel, hh, hz]
      | some z =>
        exfalso
        apply h (outNameOf (projectNameOf req.projectName) now)
        simp [createApk, hsel, hh, hz]
    · simp [createApk, hsel, hh]

/-- Witness for the amended C3 at the concrete no-template state. -/
theorem failure_paths_witness :
    (createApk stNoTmpl reqPlain 1).2 = stNoTmpl ∧
    (handleError stNoTmpl.db 1 "boom".toList).stats.fail =
      stNoTmpl.db.stats.fail + 1 := by
  have hne : ∀ n, (createApk stNoTmpl reqPlain 1).1 ≠ CreateRes.ok n := by
    intro n hn
    have hres : (createApk stNoTmpl reqPlain 1).1 = CreateRes.noTemplate := by
      decide
    rw [hres] at hn
    cases hn
  have h := failure_paths_leave_ledger_unchanged stNoTmpl reqPlain 1
    stNoTmpl.db 1 "boom".toList hne
  exact ⟨h.1, h.2.1⟩

/-- Claim C4: an artifact created with content `b` under name `n` is
fetchable with exactly `b` at any time before the retention window ends;
once the window has elapsed the fetch returns nothing; and the expiry
removal is idempotent. -/
theorem artifact_lifecycle (s0 : Store) (n b : List Char)
    (c w t1 t2 : Nat) (h1 : t1 < c + w) (h2 : c + w ≤ t2) :
    fetchArtifact (storeAt s0 n b c w t1) n = some b ∧
    fetchArtifact (storeAt s0 n b c w t2) n = none ∧
    expireArtifact (expireArtifact (storeAt s0 n b c w t2) n) n =
      expireArtifact (storeAt s0 n b c w t2) n := by
  have hn1 : ¬ (c + w ≤ t1) := by omega
  refine ⟨?_, ?_, ?_⟩
  · simp [storeAt, hn1, createArtifact, fetchArtifact]
  · rw [storeAt, if_pos h2]
    exact fetchArtifact_expire _ _
  · exact expireArtifact_idem _ _

/-- Witness for C4 with a 10-second window observed at times 3 and 10. -/
theorem artifact_lifecycle_witness :
    (3 : Nat) < 0 + 10 ∧ (0 : Nat) + 10 ≤ 10 ∧
    fetchArtifact (storeAt [] "a.apk".toList "x".toList 0 10 3) "a.apk".toList =
      some "x".toList ∧
    fetchArtifact (storeAt [] "a.apk".toList "x".toList 0 10 10) "a.apk".toList =
      none :=
  ⟨by decide, by decide,
    (artifact_lifecycle [] "a.apk".toList "x".toList 0 10 3 10
      (by decide) (by decide)).1,
    (artifact_lifecycle [] "a.apk".toList "x".toList 0 10 3 10
      (by decide) (by decide)).2.1⟩

/-- Counterexample to C7: after uploading templates at times 1 and 2,
the listing is in directory (creation) order and also contains the
`current_template.apk` alias — not the reversed insertion sequence of
template identifiers. -/
theorem listTemplates_not_reverse_order :
    listTemplates (uploadTemplate (uploadTemplate [] 1 "b1".toList) 2 "b2".toList) =
      ["template_1.apk".toList, "current_template.apk".toList,
       "template_2.apk".toList] ∧
    listTemplates (uploadTemplate (uploadTemplate [] 1 "b1".toList) 2 "b2".toList) ≠
      ["template_2.apk".toList, "template_1.apk".toList] := by
  decide

/-- Claim C7 (amended): `listTemplates` returns every `.apk` file of the
templates directory in directory order with no reversal applied, the
`current_template.apk` alias included: two uploads into an empty directory
list as first upload, current alias, second upload. -/
theorem listTemplates_directory_order (n1 n2 : Nat) (b1 b2 : List Char)
    (h12 : templateFileName n1 ≠ templateFileName n2) :
    listTemplates (uploadTemplate (uploadTemplate [] n1 b1) n2 b2) =
      [templateFileName n1, currentTemplateName, templateFileName n2] := by
  have hc1 := templateFileName_ne_current n1
  have hc2 := templateFileName_ne_current n2
  simp [uploadTemplate, writeFileDir, hasFile, listTemplates, hc1, hc2, h12,
    Ne.symm hc1, Ne.symm hc2, Ne.symm h12, templateFileName_endsWith_apk,
    List.filter_cons, endsWith_current_apk, templateFileName_endsWith_apk_chars,
    endsWith_current_apk_chars]

/-- Witness for the amended C7 at upload times 1 and 2. -/
theorem listTemplates_directory_order_witness :
    templateFileName 1 ≠ templateFileName 2 ∧
    listTemplates (uploadTemplate (uploadTemplate [] 1 "b1".toList) 2 "b2".toList) =
      [templateFileName 1, currentTemplateName, templateFileName 2] :=
  ⟨by decide,
    listTemplates_directory_order 1 2 "b1".toList "b2".toList (by decide)⟩

/-- Counterexample to C8: the stored requester label keeps every character
of the submitted username (only truncated), so a username containing
spaces and angle brackets is recorded verbatim, outside the safe set. -/
theorem username_not_sanitized :
    (createApk stTmpl reqBadUser 3).2.db.requests =
      ReqRecord.success "a b!<script>".toList "rapz-app".toList
        defaultReplacePath "rapz-app_3.apk".toList 3 :: stTmpl.db.requests ∧
    "a b!<script>".toList.all isSafeChar = false := by
  decide

/-- Claim C8 (amended): the requester label is only truncated to 64
characters (no character sanitization), while the project label is both
sanitized to the safe set `[A-Za-z0-9_-]` and truncated to 50 characters. -/
theorem labels_bounded_project_sanitized (u p : Option (List Char)) :
    (usernameOf u).length ≤ 64 ∧
    (projectNameOf p).length ≤ 50 ∧
    ∀ c ∈ projectNameOf p, isSafeChar c = true := by
  refine ⟨?_, ?_, ?_⟩
  · rw [usernameOf]
    simp [List.length_take]
  · rw [projectNameOf, sanitizeProject]
    by_cases hr : ((orElseStr p "rapz-app".toList).map
        (fun c => if isSafeChar c then c else '-')).take 50 = []
    · rw [if_pos hr]
      decide
    · rw [if_neg hr]
      simp [List.length_take]
  · intro c hc
    rw [projectNameOf, sanitizeProject] at hc
    by_cases hr : ((orElseStr p "rapz-app".toList).map
        (fun c => if isSafeChar c then c else '-')).take 50 = []
    · rw [if_pos hr] at hc
      exact (by decide : ∀ x ∈ "rapz-app".toList, isSafeChar x = true) c hc
    · rw [if_neg hr] at hc
      have hc2 := List.mem_of_mem_take hc
      rcases List.mem_map.mp hc2 with ⟨a, _, ha⟩
      by_cases hsafe : isSafeChar a
      · rw [if_pos hsafe] at ha
        rw [← ha]
        exact hsafe
      · rw [if_neg hsafe] at ha
        rw [← ha]
        decide

/-- Claim C9: a request that omits the target entry path is not rejected
for it — the handler succeeds and rewrites the default path
`assets/www/index.html`. -/
theorem default_replace_path (st : ServerState) (req : CreateReq)
    (t : List Char) (z : Zip) (now : Nat)
    (hrp : req.replacePath = none) (hf : req.file = none)
    (ht : req.text = some t) (hhtml : isLikelyHtml t = true)
    (hz : st.template = some z) :
    (createApk st req now).1 =
      CreateRes.ok (outNameOf (projectNameOf req.projectName) now) ∧
    (createApk st req now).2.generated =
      (outNameOf (projectNameOf req.projectName) now,
        rewriteZip z defaultReplacePath t) :: st.generated := by
  have htnil : t ≠ [] := isLikelyHtml_ne_nil hhtml
  simp [createApk, selectPayload, hf, ht, htnil, hhtml, hz, orElseStr, hrp]

/-- Witness for C9 at the concrete defaulted request. -/
theorem default_replace_path_witness :
    reqPlain.replacePath = none ∧
    (createApk stTmpl reqPlain 3).2.generated =
      (outNameOf (projectNameOf reqPlain.projectName) 3,
        rewriteZip zTmpl defaultReplacePath "<html>hi</html>".toList)
        :: stTmpl.generated :=
  ⟨rfl,
    (default_replace_path stTmpl reqPlain "<html>hi</html>".toList zTmpl 3
      rfl rfl rfl (by decide) rfl).2⟩

/-- Claim C10: an uploaded file takes precedence over pasted text — a file
whose name lacks a `.html`/`.htm` ending is rejected even when the pasted
text is valid HTML, and with an accepted file name the pasted text is
ignored entirely (removing it changes nothing). -/
theorem file_precedence (st : ServerState) (req : CreateReq)
    (fname buf t : List Char) (now : Nat)
    (hf : req.file = some (fname, buf)) (_ht : req.text = some t)
    (_hval : isLikelyHtml t = true) :
    (hasHtmlExt fname = false →
      createApk st req now = (CreateRes.badRequest msgUnsupported, st)) ∧
    (hasHtmlExt fname = true →
      createApk st { req with text := none } now = createApk st req now) := by
  constructor
  · intro hbad
    simp [createApk, selectPayload, hf, hbad]
  · intro hgood
    simp [createApk, selectPayload, hf, hgood]

/-- Witness for C10: a `.txt` upload is rejected although the pasted text
is valid HTML. -/
theorem file_precedence_witness :
    reqFileBad.file = some ("notes.txt".toList, "<html>hi</html>".toList) ∧
    hasHtmlExt "notes.txt".toList = false ∧
    createApk stTmpl reqFileBad 2 = (CreateRes.badRequest msgUnsupported, stTmpl) :=
  ⟨rfl, by decide,
    (file_precedence stTmpl reqFileBad "notes.txt".toList
      "<html>hi</html>".toList "<html>hi</html>".toList 2 rfl rfl
      (by decide)).1 (by decide)⟩

end Apkapa
